import Mathlib

/-!
A verification development for the client-side annotation subsystem of the
eDNA QC frontend (`src/frontend/src/App.js`).

The JavaScript source is shallowly embedded as executable Lean definitions:

* JSON values (the persisted blob after `JSON.parse`) are the inductive `JVal`;
  serialization is modelled at the JSON-value level, i.e. `JSON.stringify`
  followed by a successful `JSON.parse` is the identity on `JVal`, which is the
  JSON library's round-trip contract.
* JavaScript objects used as string-keyed maps (the annotations store and the
  occurrence lookup map) are association lists `List (String × _)` with
  JS object semantics: property update keeps the property's position, a new
  property is appended, `delete` removes it.
* JS numbers are embedded as `Int` (taxon identifiers) and `Rat` (coordinates,
  densities); number-to-string conversion is modelled by an injective decimal
  printer that never contains the `|` delimiter and never equals the `na`
  sentinel, which are the only properties of the textual form the code relies
  on.
-/

/-- A JSON value, the result of a successful `JSON.parse`. -/
inductive JVal where
  | null : JVal
  | bool (b : Bool) : JVal
  | num (q : ℚ) : JVal
  | str (s : String) : JVal
  | arr (elems : List JVal) : JVal
  | obj (fields : List (String × JVal)) : JVal

/-- First value bound to a key in an association list, modelling the JS
property read `m[k]` (JS objects have unique keys, so first = only). -/
def assocFind (k : String) : List (String × α) → Option α
  | [] => none
  | p :: ps => if p.1 = k then some p.2 else assocFind k ps

/-- JS property write `m[k] = v`: updating an existing property keeps its
position, a fresh property is appended in insertion order. -/
def jsObjSet (m : List (String × α)) (k : String) (v : α) : List (String × α) :=
  match m with
  | [] => [(k, v)]
  | p :: ps => if p.1 = k then (k, v) :: ps else p :: jsObjSet ps k v

/-- JS `delete m[k]`. -/
def jsDelete (m : List (String × α)) (k : String) : List (String × α) :=
  m.filter (fun p => decide (p.1 ≠ k))

/-- JS truthiness of a parsed JSON value (`null`, `false`, `0` and `""` are
falsy; arrays and objects are always truthy). -/
def jsTruthy : JVal → Bool
  | .null => false
  | .bool b => b
  | .num q => decide (q ≠ 0)
  | .str s => decide (s ≠ "")
  | .arr _ => true
  | .obj _ => true

/-- JS `typeof v === 'object'`: true for objects, arrays and `null`. -/
def jsTypeofObject : JVal → Bool
  | .null => true
  | .arr _ => true
  | .obj _ => true
  | _ => false

/-- Decimal printer for naturals (fuel-structured so that the kernel can
evaluate it). -/
def natReprAux : ℕ → ℕ → List Char
  | 0, _ => []
  | _ + 1, 0 => []
  | fuel + 1, n => natReprAux fuel (n / 10) ++ [Char.ofNat (48 + n % 10)]

/-- Decimal printer for naturals, e.g. `natRepr 42 = "42"`. -/
def natRepr (n : ℕ) : String :=
  if n = 0 then "0" else String.mk (natReprAux (n + 1) n)

/-- Decimal printer for integers, modelling JS number-to-string on integral
values. -/
def intRepr : ℤ → String
  | .ofNat n => natRepr n
  | .negSucc n => "-" ++ natRepr (n + 1)

/-- Printer for the rational embedding of a JS number. The code only relies on
the textual form being an injective function of the value that contains no `|`
and differs from the sentinel `"na"`; the exact digit format of non-integral
values is immaterial to every claim. -/
def ratRepr (q : ℚ) : String :=
  if q.den = 1 then intRepr q.num else intRepr q.num ++ "/" ++ natRepr q.den

/-- An occurrence record returned by the analysis service (`analyzed_occurrences`
element). `none` models a missing or `null` field. -/
structure Occurrence where
  aphiaid : Option ℤ
  scientificName : Option String
  scientificNameID : Option String
  phylum : Option String
  «class» : Option String
  decimalLongitude : Option ℚ
  decimalLatitude : Option ℚ
  footprintWKT : Option String
  density : Option ℚ
  suitability : Option ℚ
deriving DecidableEq

/-- An in-memory annotation entry `{ annotation, alternative, comments }`.
The source's `annotation` field is called `decision` here, the specification's
name for it. -/
structure AnnotationEntry where
  decision : String
  alternative : String
  comments : String
deriving DecidableEq

/-- The in-memory annotations store: a JS object keyed by annotation key. -/
abbrev Store := List (String × AnnotationEntry)

/-- Entry whose three fields are all empty. -/
def allEmptyB (a : AnnotationEntry) : Bool :=
  decide (a.decision = "") && decide (a.alternative = "") && decide (a.comments = "")

/-- `getAnnotationKey`: the stable identity string of an occurrence,
substituting the sentinel `'na'` for a missing component
(template literal with separator `|`). -/
def getAnnotationKey (occurrence : Occurrence) : String :=
  let aphiaid := match occurrence.aphiaid with
    | some i => intRepr i
    | none => "na"
  let lon := match occurrence.decimalLongitude with
    | some q => ratRepr q
    | none => "na"
  let lat := match occurrence.decimalLatitude with
    | some q => ratRepr q
    | none => "na"
  aphiaid ++ "|" ++ lon ++ "|" ++ lat

/-- Read `value?.[field] || ''` of a parsed JSON value, used by the load-time
migration to extract one of the three annotation fields. Within the persisted
data model (§3 of the spec: fields are strings when present) this is exact; a
truthy non-string JSON field value, which no spec-shaped blob contains, is
normalized to `""` here, hence the shape hypotheses on the migration claims. -/
def jsFieldStr (j : JVal) (field : String) : String :=
  match j with
  | .obj l =>
    match assocFind field l with
    | some (.str s) => s
    | _ => ""
  | _ => ""

/-- Per-entry load-time migration (App.js lines 79-89): a bare string is the
legacy shape and becomes `{ annotation: s, alternative: '', comments: '' }`;
anything else is read as the current object shape with each field defaulted to
`''` when missing, null, or empty. -/
def migrateEntry (value : JVal) : AnnotationEntry :=
  match value with
  | .str s => { decision := s, alternative := "", comments := "" }
  | _ =>
    { decision := jsFieldStr value "annotation"
      alternative := jsFieldStr value "alternative"
      comments := jsFieldStr value "comments" }

/-- Migrate every entry of a parsed map, keeping key order. -/
def migrateMap (l : List (String × JVal)) : Store :=
  l.map (fun kv => (kv.1, migrateEntry kv.2))

/-- `Object.entries` of a parsed JSON value. For an array the entries are the
index/element pairs in index order. The guard in the load path only lets
objects and arrays reach this function; the remaining cases are unreachable
there and yield `[]`. -/
def entriesOf : JVal → List (String × JVal)
  | .obj l => l
  | .arr xs => xs.enum.map (fun p => (natRepr p.1, p.2))
  | _ => []

/-- The raw persisted state of the annotations storage key: absent (or empty,
both falsy), present but not valid JSON (`JSON.parse` throws, the error is
caught and logged), or present and parsed to a JSON value. -/
inductive Stored where
  | absent : Stored
  | malformed : Stored
  | parsed (j : JVal) : Stored

/-- The load effect (App.js lines 70-99): absent and malformed blobs leave the
(initially empty) store untouched; a parsed blob populates the store only when
it is truthy and `typeof`-object, each entry migrated independently. -/
def loadAnnotations : Stored → Store
  | .absent => []
  | .malformed => []
  | .parsed j =>
    if jsTruthy j && jsTypeofObject j then migrateMap (entriesOf j) else []

/-- The JSON value `JSON.stringify` writes for one in-memory entry. -/
def encodeAnn (a : AnnotationEntry) : JVal :=
  .obj [("annotation", .str a.decision),
        ("alternative", .str a.alternative),
        ("comments", .str a.comments)]

/-- Entry list of the serialized store. -/
def encodeStoreEntries (s : Store) : List (String × JVal) :=
  s.map (fun kv => (kv.1, encodeAnn kv.2))

/-- The save effect (App.js lines 101-113) at the JSON-value level:
`JSON.stringify(annotations)` writes the object with every entry in its
current shape. -/
def saveAnnotations (s : Store) : JVal :=
  .obj (encodeStoreEntries s)

/-- A persisted annotation field is absent, null, or a string in the spec's
data model. -/
def specFieldB : Option JVal → Bool
  | none => true
  | some .null => true
  | some (.str _) => true
  | _ => false

/-- A persisted entry value in one of the shapes the spec's data model allows:
a legacy bare string, or an object whose three annotation fields, when
present, are strings or null. -/
def specShapedB : JVal → Bool
  | .str _ => true
  | .obj l => specFieldB (assocFind "annotation" l)
      && specFieldB (assocFind "alternative" l)
      && specFieldB (assocFind "comments" l)
  | _ => false

/-- The field named by the first argument of `handleAnnotationChange`: the
source's `'annotation'` edit is `decision` here (the spec's name), matching
the `decision` field of `AnnotationEntry`. -/
inductive EditField where
  | decision : EditField
  | alternative : EditField
  | comments : EditField

/-- The entry produced by merging one field edit into the current entry,
normalizing a cleared value to the empty string (`value || ''`, and the
`!value` branch writing `''`). -/
def mergeEdit (current : AnnotationEntry) (field : EditField) (value : String) :
    AnnotationEntry :=
  match field with
  | .decision => { current with decision := value }
  | .alternative => { current with alternative := value }
  | .comments => { current with comments := value }

/-- The state-transition function inside `handleAnnotationChange`
(App.js lines 115-141): merge the edit into the entry at `key` (an all-empty
default when absent) and prune the entry when every field ends up empty. -/
def handleAnnotationChange (prev : Store) (key : String) (field : EditField)
    (value : String) : Store :=
  let current := (assocFind key prev).getD
    { decision := "", alternative := "", comments := "" }
  match field with
  | .decision =>
    if value = "" then
      if current.alternative = "" ∧ current.comments = "" then
        jsDelete prev key
      else
        jsObjSet prev key { current with decision := "" }
    else
      jsObjSet prev key { current with decision := value }
  | .alternative =>
    let next := { current with alternative := value }
    if next.decision = "" ∧ next.alternative = "" ∧ next.comments = "" then
      jsDelete prev key
    else
      jsObjSet prev key next
  | .comments =>
    let next := { current with comments := value }
    if next.decision = "" ∧ next.alternative = "" ∧ next.comments = "" then
      jsDelete prev key
    else
      jsObjSet prev key next

/-- Numeric value of a list of decimal digit characters. -/
def digitsVal (ds : List Char) : ℕ :=
  ds.foldl (fun n c => 10 * n + (c.toNat - 48)) 0

/-- JS `parseInt(s, 10)`: skip leading whitespace, read an optional sign and
then the longest prefix of decimal digits; `none` models the `NaN` result when
no digit is found. -/
def parseIntJS (s : String) : Option ℤ :=
  let cs := s.toList.dropWhile Char.isWhitespace
  let signed : ℤ × List Char :=
    match cs with
    | '-' :: rest => (-1, rest)
    | '+' :: rest => (1, rest)
    | _ => (1, cs)
  let ds := signed.2.takeWhile Char.isDigit
  if ds.isEmpty then none else some (signed.1 * digitsVal ds)

/-- JS `parseFloat(s)` restricted to plain decimal notation (optional sign,
digits, optional fraction): the longest such prefix is converted, `none`
models `NaN`. Exponent notation never arises in this development: the only
strings this is applied to in a provable position are the key components
produced by the decimal printers above. -/
def parseFloatJS (s : String) : Option ℚ :=
  let cs := s.toList.dropWhile Char.isWhitespace
  let signed : Bool × List Char :=
    match cs with
    | '-' :: rest => (true, rest)
    | '+' :: rest => (false, rest)
    | _ => (false, cs)
  let intDs := signed.2.takeWhile Char.isDigit
  let rest := signed.2.dropWhile Char.isDigit
  let fracDs : List Char :=
    match rest with
    | '.' :: r => r.takeWhile Char.isDigit
    | _ => []
  if intDs.isEmpty && fracDs.isEmpty then none
  else
    let mag : ℤ := digitsVal intDs * 10 ^ fracDs.length + digitsVal fracDs
    some (mkRat (if signed.1 then -mag else mag) (10 ^ fracDs.length))

/-- Split a character list at every occurrence of a separator character,
modelling JS `String.prototype.split` with a one-character separator. -/
def splitOnChar (c : Char) : List Char → List (List Char)
  | [] => [[]]
  | x :: xs =>
    match splitOnChar c xs, decide (x = c) with
    | r, true => [] :: r
    | [], false => [[x]]
    | h :: t, false => (x :: h) :: t

/-- `key.split('|')`. -/
def splitBar (s : String) : List String :=
  (splitOnChar '|' s.toList).map String.mk

/-- Key component back-parse `comp !== 'na' ? parseInt(comp, 10) : null`.
An out-of-range destructuring (`undefined` component) and a `NaN` parse are
both `none`: JSON serialization renders `NaN` as `null`, and neither arises
for entries whose key was produced by `getAnnotationKey`. -/
def parseKeyInt : Option String → Option ℤ
  | some comp => if comp = "na" then none else parseIntJS comp
  | none => none

/-- Key component back-parse `comp !== 'na' ? parseFloat(comp) : null`. -/
def parseKeyFloat : Option String → Option ℚ
  | some comp => if comp = "na" then none else parseFloatJS comp
  | none => none

/-- `x || null` on a possibly-missing string field: missing, null and `""` all
export as null. -/
def orNullStr : Option String → Option String
  | some s => if s = "" then none else some s
  | none => none

/-- `x || null` on a plain string. -/
def strOrNull (s : String) : Option String :=
  if s = "" then none else some s

/-- `x || null` on a possibly-missing numeric field: missing, null and `0` all
export as null. -/
def orNullNum : Option ℚ → Option ℚ
  | some q => if q = 0 then none else some q
  | none => none

/-- One row of the current-format export document. -/
structure NewItem where
  aphiaid : Option ℤ
  scientificName : Option String
  scientificNameID : Option String
  phylum : Option String
  «class» : Option String
  decimalLongitude : Option ℚ
  decimalLatitude : Option ℚ
  footprintWKT : Option String
  density : Option ℚ
  suitability : Option ℚ
  annotation : Option String
  alternative : Option String
  comments : Option String
deriving DecidableEq

/-- One row of the legacy-format export document. `remove = none` models the
`remove` property being absent from the object. -/
structure OldItem where
  scientificName : Option String
  scientificNameID : Option String
  phylum : Option String
  «class» : Option String
  decimalLongitude : Option ℚ
  decimalLatitude : Option ℚ
  footprintWKT : Option String
  density : Option ℚ
  suitability : Option ℚ
  annotation : Option String
  AphiaID : Option ℤ
  new_AphiaID : Option ℤ
  comments : Option String
  remove : Option Bool
deriving DecidableEq

/-- The occurrence lookup map both exports build first (`occurrenceMap`):
every record is written under its derived key, later records overwriting
earlier ones on key collision. -/
def occurrenceMap (records : List Occurrence) : List (String × Occurrence) :=
  records.foldl (fun m occ => jsObjSet m (getAnnotationKey occ) occ) []

/-- The per-entry body of `handleDownloadAnnotations` (App.js lines 164-210):
parse the key back into its components, drop the entry unless its key matches
a record of the current result set and its decision is exactly `accept` or
`reject`, and project the joined row. The in-memory store always holds
migrated object entries, so the source's defensive `typeof === 'string'`
branches are dead here and the entry's own fields are read directly. -/
def projectNewFormat (m : List (String × Occurrence)) (kv : String × AnnotationEntry) :
    Option NewItem :=
  let key := kv.1
  let annotationData := kv.2
  let comps := splitBar key
  let aphiaid := parseKeyInt comps[0]?
  let lon := parseKeyFloat comps[1]?
  let lat := parseKeyFloat comps[2]?
  match assocFind key m with
  | none => none
  | some occurrence =>
    let annotationValue := annotationData.decision
    if annotationValue ≠ "accept" ∧ annotationValue ≠ "reject" then none
    else
      some
        { aphiaid := aphiaid
          scientificName := orNullStr occurrence.scientificName
          scientificNameID := orNullStr occurrence.scientificNameID
          phylum := orNullStr occurrence.phylum
          «class» := orNullStr occurrence.«class»
          decimalLongitude := lon
          decimalLatitude := lat
          footprintWKT := orNullStr occurrence.footprintWKT
          density := orNullNum occurrence.density
          suitability := orNullNum occurrence.suitability
          annotation := strOrNull annotationValue
          alternative := strOrNull annotationData.alternative
          comments := strOrNull annotationData.comments }

/-- The per-entry body of `handleDownloadAnnotationsOldFormat`
(App.js lines 250-315): same key parse, join and accept/reject filter as the
current format; the projection renames `aphiaid` to `AphiaID`, converts
`alternative` to the integer `new_AphiaID` (null when empty or `NaN`), and
attaches `remove` only on reject (true exactly when `alternative` is empty). -/
def projectOldFormat (m : List (String × Occurrence)) (kv : String × AnnotationEntry) :
    Option OldItem :=
  let key := kv.1
  let annotationData := kv.2
  let comps := splitBar key
  let aphiaid := parseKeyInt comps[0]?
  let lon := parseKeyFloat comps[1]?
  let lat := parseKeyFloat comps[2]?
  match assocFind key m with
  | none => none
  | some occurrence =>
    let annotationValue := annotationData.decision
    if annotationValue ≠ "accept" ∧ annotationValue ≠ "reject" then none
    else
      let alternative := annotationData.alternative
      let newAphiaID := if alternative ≠ "" then parseIntJS alternative else none
      some
        { scientificName := orNullStr occurrence.scientificName
          scientificNameID := orNullStr occurrence.scientificNameID
          phylum := orNullStr occurrence.phylum
          «class» := orNullStr occurrence.«class»
          decimalLongitude := lon
          decimalLatitude := lat
          footprintWKT := orNullStr occurrence.footprintWKT
          density := orNullNum occurrence.density
          suitability := orNullNum occurrence.suitability
          annotation := strOrNull annotationValue
          AphiaID := aphiaid
          new_AphiaID := newAphiaID
          comments := strOrNull annotationData.comments
          remove :=
            if annotationValue = "reject" then some (decide (alternative = ""))
            else none }

/-- Stable insertion of `x` into `l`: `x` is placed before the first element
`y` with `le x y`, i.e. before the first element that does not strictly
precede it. -/
def insLe (le : α → α → Bool) (x : α) : List α → List α
  | [] => [x]
  | y :: ys => if le x y then x :: y :: ys else y :: insLe le x ys

/-- Stable insertion sort. `Array.prototype.sort` with a consistent comparator
`cmp` is specified (ES2019) to produce the unique stable order in which `x`
precedes `y` whenever `cmp x y ≤ 0`, which this computes with
`le x y := cmp x y ≤ 0`. -/
def sortByLe (le : α → α → Bool) : List α → List α
  | [] => []
  | x :: xs => insLe le x (sortByLe le xs)

/-- The current-format sort comparator (App.js lines 212-221): difference of
`aphiaid` with `x || 0` coalescing (so a null and a genuine `0` compare
equal), then longitude, then latitude. A `null !== null` comparison is false
in JS, so equal optional values fall through to the next component, matching
`≠` on `Option`. -/
def compareNewItems (a b : NewItem) : ℚ :=
  if a.aphiaid ≠ b.aphiaid then
    ((a.aphiaid.getD 0 - b.aphiaid.getD 0 : ℤ) : ℚ)
  else if a.decimalLongitude ≠ b.decimalLongitude then
    a.decimalLongitude.getD 0 - b.decimalLongitude.getD 0
  else
    a.decimalLatitude.getD 0 - b.decimalLatitude.getD 0

/-- The old-format comparator reads `a.aphiaid`, but old-format items carry
`AphiaID` and have no `aphiaid` property, so the access yields `undefined`
for every item. -/
def oldItemAphiaidProp (_ : OldItem) : Option ℤ := none

/-- The legacy-format sort comparator (App.js lines 317-326), textually the
same as the current-format one. Because `a.aphiaid` is `undefined` on every
old-format item, `a.aphiaid !== b.aphiaid` is always false and the first
branch never fires: the comparator orders by longitude then latitude only. -/
def compareOldItems (a b : OldItem) : ℚ :=
  if oldItemAphiaidProp a ≠ oldItemAphiaidProp b then
    (((oldItemAphiaidProp a).getD 0 - (oldItemAphiaidProp b).getD 0 : ℤ) : ℚ)
  else if a.decimalLongitude ≠ b.decimalLongitude then
    a.decimalLongitude.getD 0 - b.decimalLongitude.getD 0
  else
    a.decimalLatitude.getD 0 - b.decimalLatitude.getD 0

/-- The non-strict order induced by the current-format comparator: `a` weakly
precedes `b` exactly when `compareNewItems a b ≤ 0` (the difference of two
numbers is nonpositive exactly when the first is at most the second); stated
with `≤` directly so that the kernel can evaluate it. The agreement with the
comparator is the theorem `newItemLe_eq_compare`. -/
def newItemLe (a b : NewItem) : Bool :=
  if a.aphiaid ≠ b.aphiaid then
    decide (a.aphiaid.getD 0 ≤ b.aphiaid.getD 0)
  else if a.decimalLongitude ≠ b.decimalLongitude then
    decide (a.decimalLongitude.getD 0 ≤ b.decimalLongitude.getD 0)
  else
    decide (a.decimalLatitude.getD 0 ≤ b.decimalLatitude.getD 0)

/-- The non-strict order induced by the legacy-format comparator, see
`oldItemLe_eq_compare`. -/
def oldItemLe (a b : OldItem) : Bool :=
  if oldItemAphiaidProp a ≠ oldItemAphiaidProp b then
    decide ((oldItemAphiaidProp a).getD 0 ≤ (oldItemAphiaidProp b).getD 0)
  else if a.decimalLongitude ≠ b.decimalLongitude then
    decide (a.decimalLongitude.getD 0 ≤ b.decimalLongitude.getD 0)
  else
    decide (a.decimalLatitude.getD 0 ≤ b.decimalLatitude.getD 0)

/-- The list written to `annotations.json` by `handleDownloadAnnotations`
(App.js lines 152-236): map every store entry through the projection, drop
the `null` results, sort with the current-format comparator. -/
def handleDownloadAnnotations (records : List Occurrence) (annotations : Store) :
    List NewItem :=
  sortByLe newItemLe
    ((annotations.map (projectNewFormat (occurrenceMap records))).reduceOption)

/-- The list written to `annotations_old_format.json` by
`handleDownloadAnnotationsOldFormat` (App.js lines 238-341). -/
def handleDownloadAnnotationsOldFormat (records : List Occurrence)
    (annotations : Store) : List OldItem :=
  sortByLe oldItemLe
    ((annotations.map (projectOldFormat (occurrenceMap records))).reduceOption)

/-- Non-strict order induced by the render-time density comparator
`(a.density ?? Infinity) - (b.density ?? Infinity)` (App.js lines 579-583):
a missing density is positive infinity, so it weakly follows everything, and
two missing densities compare equal (the `Infinity - Infinity = NaN` result is
coerced to `0` by the sort). -/
def densityLe (a b : Occurrence) : Bool :=
  match a.density, b.density with
  | none, none => true
  | none, some _ => false
  | some _, none => true
  | some x, some y => decide (x ≤ y)

/-- The render-time occurrence ordering
(`.slice().sort((a, b) => da - db)`, App.js lines 577-583). -/
def sortOccurrences (records : List Occurrence) : List Occurrence :=
  sortByLe densityLe records

theorem assocFind_jsObjSet (m : List (String × α)) (k k2 : String) (v : α) :
    assocFind k2 (jsObjSet m k v) = if k2 = k then some v else assocFind k2 m := by
  induction m with
  | nil =>
    by_cases h : k2 = k
    · simp [jsObjSet, assocFind, h]
    · have h2 : ¬k = k2 := fun hh => h hh.symm
      simp [jsObjSet, assocFind, h, h2]
  | cons p ps ih =>
    by_cases hp : p.1 = k
    · by_cases h : k2 = k
      · simp [jsObjSet, assocFind, hp, h]
      · have h2 : ¬k = k2 := fun hh => h hh.symm
        have hp2 : ¬p.1 = k2 := by rw [hp]; exact h2
        simp [jsObjSet, assocFind, hp, h, h2, hp2]
    · by_cases hq : p.1 = k2
      · have h : ¬k2 = k := fun hh => hp (hq.symm ▸ hh)
        simp [jsObjSet, assocFind, hp, hq, h]
      · simp [jsObjSet, assocFind, hp, hq, ih]

theorem assocFind_jsDelete_self (m : List (String × α)) (k : String) :
    assocFind k (jsDelete m k) = none := by
  induction m with
  | nil => rfl
  | cons p ps ih =>
    by_cases hp : p.1 = k
    · simpa [jsDelete, hp] using ih
    · simpa [jsDelete, assocFind, hp] using ih

theorem mem_jsObjSet (m : List (String × α)) (k : String) (v : α)
    (kv : String × α) (h : kv ∈ jsObjSet m k v) : kv ∈ m ∨ kv = (k, v) := by
  induction m with
  | nil => simpa [jsObjSet] using h
  | cons p ps ih =>
    by_cases hp : p.1 = k
    · simp only [jsObjSet, hp, if_pos, List.mem_cons] at h
      rcases h with h | h
      · exact Or.inr h
      · exact Or.inl (List.mem_cons_of_mem _ h)
    · simp only [jsObjSet, hp, if_neg, not_false_iff, List.mem_cons] at h
      rcases h with h | h
      · exact Or.inl (h ▸ List.mem_cons_self _ _)
      · rcases ih h with h2 | h2
        · exact Or.inl (List.mem_cons_of_mem _ h2)
        · exact Or.inr h2

theorem mem_jsDelete (m : List (String × α)) (k : String)
    (kv : String × α) (h : kv ∈ jsDelete m k) : kv ∈ m :=
  List.mem_of_mem_filter h

theorem assocFind_occurrenceMap_aux (records : List Occurrence)
    (init : List (String × Occurrence)) (k : String) :
    (assocFind k (records.foldl
        (fun m occ => jsObjSet m (getAnnotationKey occ) occ) init)).isSome = true ↔
      (∃ r ∈ records, getAnnotationKey r = k) ∨ (assocFind k init).isSome = true := by
  induction records generalizing init with
  | nil => simp
  | cons r rs ih =>
    simp only [List.foldl_cons, ih, List.mem_cons]
    rw [assocFind_jsObjSet]
    constructor
    · rintro (⟨x, hx, hk⟩ | h)
      · exact Or.inl ⟨x, Or.inr hx, hk⟩
      · by_cases hk : k = getAnnotationKey r
        · exact Or.inl ⟨r, Or.inl rfl, hk.symm⟩
        · rw [if_neg hk] at h
          exact Or.inr h
    · rintro (⟨x, hx | hx, hk⟩ | h)
      · subst hx
        exact Or.inr (by simp [hk.symm])
      · exact Or.inl ⟨x, hx, hk⟩
      · by_cases hk : k = getAnnotationKey r
        · exact Or.inr (by simp [hk])
        · exact Or.inr (by rw [if_neg hk]; exact h)

theorem assocFind_occurrenceMap (records : List Occurrence) (k : String) :
    (assocFind k (occurrenceMap records)).isSome = true ↔
      ∃ r ∈ records, getAnnotationKey r = k := by
  rw [occurrenceMap, assocFind_occurrenceMap_aux]
  simp [assocFind]

theorem length_insLe (le : α → α → Bool) (x : α) (l : List α) :
    (insLe le x l).length = l.length + 1 := by
  induction l with
  | nil => rfl
  | cons y ys ih =>
    by_cases h : le x y
    · simp [insLe, h]
    · simp [insLe, h, ih]

theorem length_sortByLe (le : α → α → Bool) (l : List α) :
    (sortByLe le l).length = l.length := by
  induction l with
  | nil => rfl
  | cons x xs ih => simp [sortByLe, length_insLe, ih]

theorem perm_insLe (le : α → α → Bool) (x : α) (l : List α) :
    (insLe le x l).Perm (x :: l) := by
  induction l with
  | nil => simp [insLe]
  | cons y ys ih =>
    by_cases h : le x y
    · simp [insLe, h]
    · have h1 : (y :: insLe le x ys).Perm (y :: x :: ys) := ih.cons y
      have h2 : (y :: x :: ys).Perm (x :: y :: ys) := List.Perm.swap x y ys
      simpa [insLe, h] using h1.trans h2

theorem perm_sortByLe (le : α → α → Bool) (l : List α) :
    (sortByLe le l).Perm l := by
  induction l with
  | nil => simp [sortByLe]
  | cons x xs ih => exact (perm_insLe le x (sortByLe le xs)).trans (ih.cons x)

theorem mem_insLe (le : α → α → Bool) (x z : α) (l : List α) :
    z ∈ insLe le x l ↔ z = x ∨ z ∈ l := by
  rw [(perm_insLe le x l).mem_iff]
  simp

theorem pairwise_insLe (le : α → α → Bool) (x : α) (l : List α)
    (htot : ∀ a b, le a b = true ∨ le b a = true)
    (htrans : ∀ a b c, le a b = true → le b c = true → le a c = true)
    (h : l.Pairwise (fun a b => le a b = true)) :
    (insLe le x l).Pairwise (fun a b => le a b = true) := by
  induction l with
  | nil => simp [insLe]
  | cons y ys ih =>
    rw [List.pairwise_cons] at h
    by_cases hxy : le x y
    · rw [insLe, if_pos hxy, List.pairwise_cons]
      refine ⟨?_, List.pairwise_cons.2 h⟩
      intro z hz
      rcases List.mem_cons.1 hz with hz | hz
      · exact hz ▸ hxy
      · exact htrans x y z hxy (h.1 z hz)
    · have hyx : le y x = true := by
        rcases htot x y with ht | ht
        · exact absurd ht hxy
        · exact ht
      rw [insLe, if_neg hxy, List.pairwise_cons]
      refine ⟨?_, ih h.2⟩
      intro z hz
      rcases (mem_insLe le x z ys).1 hz with hz | hz
      · exact hz ▸ hyx
      · exact h.1 z hz

theorem pairwise_sortByLe (le : α → α → Bool) (l : List α)
    (htot : ∀ a b, le a b = true ∨ le b a = true)
    (htrans : ∀ a b c, le a b = true → le b c = true → le a c = true) :
    (sortByLe le l).Pairwise (fun a b => le a b = true) := by
  induction l with
  | nil => simp [sortByLe]
  | cons x xs ih => exact pairwise_insLe le x _ htot htrans ih

theorem filter_insLe_neg (le : α → α → Bool) (p : α → Bool) (x : α) (l : List α)
    (hx : p x = false) : (insLe le x l).filter p = l.filter p := by
  induction l with
  | nil => simp [insLe, hx]
  | cons y ys ih =>
    by_cases h : le x y
    · simp [insLe, h, hx]
    · by_cases hy : p y
      · simp [insLe, h, hy, ih]
      · simp [insLe, h, hy, ih]

theorem filter_insLe_pos (le : α → α → Bool) (p : α → Bool) (x : α) (l : List α)
    (hx : p x = true) (hstop : ∀ y, p y = true → le x y = true) :
    (insLe le x l).filter p = x :: l.filter p := by
  induction l with
  | nil => simp [insLe, hx]
  | cons y ys ih =>
    by_cases h : le x y
    · simp [insLe, h, hx]
    · have hy : p y = false := by
        cases hpy : p y
        · rfl
        · exact absurd (hstop y hpy) h
      simp [insLe, h, hy, ih]

theorem filter_sortByLe (le : α → α → Bool) (p : α → Bool) (l : List α)
    (hp : ∀ x y, p x = true → p y = true → le x y = true) :
    (sortByLe le l).filter p = l.filter p := by
  induction l with
  | nil => simp [sortByLe]
  | cons x xs ih =>
    cases hx : p x
    · rw [sortByLe, filter_insLe_neg le p x _ hx, ih, List.filter_cons, hx]
      simp
    · rw [sortByLe, filter_insLe_pos le p x _ hx (fun y hy => hp x y hx hy), ih,
        List.filter_cons, hx]
      simp

theorem length_reduceOption_map (f : α → Option β) (l : List α) :
    ((l.map f).reduceOption).length = (l.filter (fun x => (f x).isSome)).length := by
  induction l with
  | nil => rfl
  | cons x xs ih =>
    cases hx : f x
    · simpa [List.reduceOption_cons_of_none, hx] using ih
    · simpa [List.reduceOption_cons_of_some, hx] using ih

/-- Migrating an entry already in the current shape is a no-op. -/
theorem migrateEntry_encodeAnn (a : AnnotationEntry) :
    migrateEntry (encodeAnn a) = a := by
  cases a
  rfl

theorem newItemLe_eq_compare (a b : NewItem) :
    newItemLe a b = decide (compareNewItems a b ≤ 0) := by
  unfold newItemLe compareNewItems
  by_cases h1 : a.aphiaid = b.aphiaid
  · by_cases h2 : a.decimalLongitude = b.decimalLongitude
    · simp [h1, h2, sub_nonpos]
    · simp [h1, h2, sub_nonpos]
  · simp only [ne_eq, h1, not_false_eq_true, if_true, decide_eq_decide,
      Int.cast_sub, sub_nonpos, Int.cast_le]

theorem oldItemLe_eq_compare (a b : OldItem) :
    oldItemLe a b = decide (compareOldItems a b ≤ 0) := by
  unfold oldItemLe compareOldItems
  by_cases h2 : a.decimalLongitude = b.decimalLongitude
  · simp [oldItemAphiaidProp, h2, sub_nonpos]
  · simp [oldItemAphiaidProp, h2, sub_nonpos]

theorem allEmptyB_iff (a : AnnotationEntry) :
    allEmptyB a = true ↔ a.decision = "" ∧ a.alternative = "" ∧ a.comments = "" := by
  simp [allEmptyB, Bool.and_eq_true, decide_eq_true_eq, and_assoc]

theorem assocFind_jsObjSet_self (m : List (String × α)) (k : String) (v : α) :
    assocFind k (jsObjSet m k v) = some v := by
  rw [assocFind_jsObjSet]
  simp

/-- Claim C4: two occurrence records with identical
`(aphiaid, decimalLongitude, decimalLatitude)` triples always derive identical
annotation keys, whatever their other fields hold; `getAnnotationKey` is a
total function by construction. -/
theorem getAnnotationKey_stable (o1 o2 : Occurrence)
    (ha : o1.aphiaid = o2.aphiaid)
    (hlon : o1.decimalLongitude = o2.decimalLongitude)
    (hlat : o1.decimalLatitude = o2.decimalLatitude) :
    getAnnotationKey o1 = getAnnotationKey o2 := by
  unfold getAnnotationKey
  rw [ha, hlon, hlat]

/-- Witness for C4: records agreeing on the identifying triple but differing
in every other field derive the same key. -/
theorem getAnnotationKey_stable_witness :
    getAnnotationKey
        ⟨some 7, some "A", none, none, none, some 1, some 2, none, some 3, none⟩ =
      getAnnotationKey
        ⟨some 7, some "B", some "id", some "P", some "C", some 1, some 2,
          some "W", none, some 4⟩ :=
  getAnnotationKey_stable _ _ rfl rfl rfl

/-- Claim C1: the pruning invariant of `handleAnnotationChange`. Merging the
edit into the entry at `key` (an all-empty default when the key is absent):
if the merged entry is all-empty the key is deleted from the resulting store;
if the edited value is non-empty the key is present; the entry stored at
`key`, when present, is never all-empty; and an edit never introduces an
all-empty entry anywhere in a store that had none. -/
theorem handleAnnotationChange_pruning (prev : Store) (key : String)
    (field : EditField) (value : String) :
    (allEmptyB (mergeEdit ((assocFind key prev).getD ⟨"", "", ""⟩) field value) = true →
      assocFind key (handleAnnotationChange prev key field value) = none)
  ∧ (value ≠ "" →
      (assocFind key (handleAnnotationChange prev key field value)).isSome = true)
  ∧ (∀ e, assocFind key (handleAnnotationChange prev key field value) = some e →
      allEmptyB e = false)
  ∧ ((∀ kv ∈ prev, allEmptyB kv.2 = false) →
      ∀ kv ∈ handleAnnotationChange prev key field value, allEmptyB kv.2 = false) := by
  cases field with
  | decision =>
    by_cases hv : value = ""
    · subst hv
      by_cases hc : ((assocFind key prev).getD ⟨"", "", ""⟩).alternative = "" ∧
          ((assocFind key prev).getD ⟨"", "", ""⟩).comments = ""
      · refine ⟨fun _ => ?_, fun hv2 => absurd rfl hv2, fun e he => ?_, fun hprev kv hkv => ?_⟩
        · simp [handleAnnotationChange, hc, assocFind_jsDelete_self]
        · simp [handleAnnotationChange, hc, assocFind_jsDelete_self] at he
        · simp only [handleAnnotationChange, if_pos, hc, if_true] at hkv
          exact hprev kv (mem_jsDelete _ _ _ hkv)
      · refine ⟨fun hAE => ?_, fun hv2 => absurd rfl hv2, fun e he => ?_, fun hprev kv hkv => ?_⟩
        · rw [allEmptyB_iff] at hAE
          exact absurd ⟨hAE.2.1, hAE.2.2⟩ hc
        · simp only [handleAnnotationChange, if_pos, hc, if_false,
            assocFind_jsObjSet_self, Option.some.injEq] at he
          subst he
          cases hA : decide (((assocFind key prev).getD ⟨"", "", ""⟩).alternative = "") with
          | false => simp [allEmptyB, hA]
          | true =>
            have : ((assocFind key prev).getD ⟨"", "", ""⟩).comments ≠ "" := by
              intro hcm
              exact hc ⟨of_decide_eq_true hA, hcm⟩
            simp [allEmptyB, this]
        · simp only [handleAnnotationChange, if_pos, hc, if_false] at hkv
          rcases mem_jsObjSet _ _ _ _ hkv with h | h
          · exact hprev kv h
          · subst h
            cases hA : decide (((assocFind key prev).getD ⟨"", "", ""⟩).alternative = "") with
            | false => simp [allEmptyB, hA]
            | true =>
              have : ((assocFind key prev).getD ⟨"", "", ""⟩).comments ≠ "" := by
                intro hcm
                exact hc ⟨of_decide_eq_true hA, hcm⟩
              simp [allEmptyB, this]
    · refine ⟨fun hAE => ?_, fun _ => ?_, fun e he => ?_, fun hprev kv hkv => ?_⟩
      · rw [allEmptyB_iff] at hAE
        exact absurd hAE.1 hv
      · simp [handleAnnotationChange, hv, assocFind_jsObjSet_self]
      · simp only [handleAnnotationChange, hv, if_false, assocFind_jsObjSet_self,
          Option.some.injEq] at he
        subst he
        simp [allEmptyB, hv]
      · simp only [handleAnnotationChange, hv, if_false] at hkv
        rcases mem_jsObjSet _ _ _ _ hkv with h | h
        · exact hprev kv h
        · subst h
          simp [allEmptyB, hv]
  | alternative =>
    by_cases hc : ((assocFind key prev).getD ⟨"", "", ""⟩).decision = "" ∧ value = "" ∧
        ((assocFind key prev).getD ⟨"", "", ""⟩).comments = ""
    · refine ⟨fun _ => ?_, fun hv2 => absurd hc.2.1 hv2, fun e he => ?_, fun hprev kv hkv => ?_⟩
      · simp [handleAnnotationChange, hc, assocFind_jsDelete_self]
      · simp [handleAnnotationChange, hc, assocFind_jsDelete_self] at he
      · simp only [handleAnnotationChange, hc, if_true] at hkv
        exact hprev kv (mem_jsDelete _ _ _ hkv)
    · refine ⟨fun hAE => ?_, fun _ => ?_, fun e he => ?_, fun hprev kv hkv => ?_⟩
      · rw [allEmptyB_iff] at hAE
        simp only [mergeEdit] at hAE
        exact absurd ⟨hAE.1, hAE.2.1, hAE.2.2⟩ hc
      · simp [handleAnnotationChange, hc, assocFind_jsObjSet_self]
      · simp only [handleAnnotationChange, hc, if_false, assocFind_jsObjSet_self,
          Option.some.injEq] at he
        subst he
        rcases not_and_or.1 hc with h | h
        · simp [allEmptyB, h]
        · rcases not_and_or.1 h with h2 | h2
          · simp [allEmptyB, h2]
          · simp [allEmptyB, h2]
      · simp only [handleAnnotationChange, hc, if_false] at hkv
        rcases mem_jsObjSet _ _ _ _ hkv with h | h
        · exact hprev kv h
        · subst h
          rcases not_and_or.1 hc with h | h
          · simp [allEmptyB, h]
          · rcases not_and_or.1 h with h2 | h2
            · simp [allEmptyB, h2]
            · simp [allEmptyB, h2]
  | comments =>
    by_cases hc : ((assocFind key prev).getD ⟨"", "", ""⟩).decision = "" ∧
        ((assocFind key prev).getD ⟨"", "", ""⟩).alternative = "" ∧ value = ""
    · refine ⟨fun _ => ?_, fun hv2 => absurd hc.2.2 hv2, fun e he => ?_, fun hprev kv hkv => ?_⟩
      · simp [handleAnnotationChange, hc, assocFind_jsDelete_self]
      · simp [handleAnnotationChange, hc, assocFind_jsDelete_self] at he
      · simp only [handleAnnotationChange, hc, if_true] at hkv
        exact hprev kv (mem_jsDelete _ _ _ hkv)
    · refine ⟨fun hAE => ?_, fun _ => ?_, fun e he => ?_, fun hprev kv hkv => ?_⟩
      · rw [allEmptyB_iff] at hAE
        simp only [mergeEdit] at hAE
        exact absurd ⟨hAE.1, hAE.2.1, hAE.2.2⟩ hc
      · simp [handleAnnotationChange, hc, assocFind_jsObjSet_self]
      · simp only [handleAnnotationChange, hc, if_false, assocFind_jsObjSet_self,
          Option.some.injEq] at he
        subst he
        rcases not_and_or.1 hc with h | h
        · simp [allEmptyB, h]
        · rcases not_and_or.1 h with h2 | h2
          · simp [allEmptyB, h2]
          · simp [allEmptyB, h2]
      · simp only [handleAnnotationChange, hc, if_false] at hkv
        rcases mem_jsObjSet _ _ _ _ hkv with h | h
        · exact hprev kv h
        · subst h
          rcases not_and_or.1 hc with h | h
          · simp [allEmptyB, h]
          · rcases not_and_or.1 h with h2 | h2
            · simp [allEmptyB, h2]
            · simp [allEmptyB, h2]

/-- Witness for C1: clearing the decision of a decision-only entry removes the
key; writing a comment into an empty store creates the key. -/
theorem handleAnnotationChange_pruning_witness :
    assocFind "7|1|2"
        (handleAnnotationChange [("7|1|2", ⟨"accept", "", ""⟩)] "7|1|2"
          EditField.decision "") = none
  ∧ (assocFind "7|1|2"
        (handleAnnotationChange [] "7|1|2" EditField.comments "note")).isSome = true :=
  ⟨(handleAnnotationChange_pruning [("7|1|2", ⟨"accept", "", ""⟩)] "7|1|2"
      EditField.decision "").1 (by decide),
   (handleAnnotationChange_pruning [] "7|1|2" EditField.comments "note").2.1
      (by decide)⟩

theorem migrateMap_encodeStoreEntries (M : Store) :
    migrateMap (encodeStoreEntries M) = M := by
  induction M with
  | nil => rfl
  | cons kv tl ih =>
    simp only [migrateMap, encodeStoreEntries, List.map_cons] at ih ⊢
    rw [migrateEntry_encodeAnn]
    simp only [List.map_map] at ih ⊢
    rw [ih]

/-- Claim C2: for a current-shape map with no all-empty entries, serializing
the store and loading the result back (parse of the stringified blob, then
per-entry migration) returns the same map; equivalently, migration is a fixed
point on serialized current-shape entries. -/
theorem load_save_roundtrip (M : Store) (_hM : ∀ kv ∈ M, allEmptyB kv.2 = false) :
    loadAnnotations (.parsed (saveAnnotations M)) = M
  ∧ migrateMap (encodeStoreEntries M) = M := by
  refine ⟨?_, migrateMap_encodeStoreEntries M⟩
  simp only [loadAnnotations, saveAnnotations, jsTruthy, jsTypeofObject,
    Bool.and_self, if_true, entriesOf]
  exact migrateMap_encodeStoreEntries M

/-- Witness for C2 at a one-entry store. -/
theorem load_save_roundtrip_witness :
    loadAnnotations (.parsed (saveAnnotations [("1|2|3", ⟨"accept", "x", ""⟩)])) =
      [("1|2|3", ⟨"accept", "x", ""⟩)] :=
  (load_save_roundtrip [("1|2|3", ⟨"accept", "x", ""⟩)] (by decide)).1

/-- Claim C3: per-entry migration is idempotent on spec-shaped persisted maps
(legacy bare strings, current objects, or a mix): migrating the serialized
form of a migrated map changes nothing, and migrating an entry already in the
current shape is a no-op. -/
theorem migrate_idempotent (L : List (String × JVal))
    (_hL : ∀ kv ∈ L, specShapedB kv.2 = true) :
    migrateMap (encodeStoreEntries (migrateMap L)) = migrateMap L
  ∧ ∀ a : AnnotationEntry, migrateEntry (encodeAnn a) = a :=
  ⟨migrateMap_encodeStoreEntries (migrateMap L), migrateEntry_encodeAnn⟩

/-- Witness for C3 at a mixed-shape two-entry map. -/
theorem migrate_idempotent_witness :
    migrateMap (encodeStoreEntries (migrateMap
        [("k", JVal.str "accept"), ("1|2|3", JVal.obj [("annotation", JVal.str "x")])])) =
      migrateMap
        [("k", JVal.str "accept"), ("1|2|3", JVal.obj [("annotation", JVal.str "x")])] :=
  (migrate_idempotent
    [("k", JVal.str "accept"), ("1|2|3", JVal.obj [("annotation", JVal.str "x")])]
    (by decide)).1

/-- Counterexample for C9: a persisted blob that is valid JSON but a JSON
array rather than a JSON object is not treated as empty. JS `typeof` calls an
array an object, so `["accept"]` passes the load guard and `Object.entries`
turns it into an index-keyed entry: the loaded store is non-empty. -/
theorem load_array_counterexample :
    loadAnnotations (.parsed (JVal.arr [JVal.str "accept"])) =
      [("0", ⟨"accept", "", ""⟩)]
  ∧ loadAnnotations (.parsed (JVal.arr [JVal.str "accept"])) ≠ [] := by
  decide

/-- Claim C9 (amended): a blob that is absent, not valid JSON, or valid JSON
that fails the load guard — i.e. is neither a JSON object nor a JSON array —
loads as the empty store; `loadAnnotations` is total, so loading never raises. -/
theorem load_nonobject_empty :
    loadAnnotations .absent = []
  ∧ loadAnnotations .malformed = []
  ∧ ∀ j : JVal, (jsTruthy j && jsTypeofObject j) = false →
      loadAnnotations (.parsed j) = [] := by
  refine ⟨rfl, rfl, fun j h => ?_⟩
  simp [loadAnnotations, h]

/-- Witness for C9 (amended) at the number blob `5`. -/
theorem load_nonobject_empty_witness :
    loadAnnotations (.parsed (JVal.num 5)) = [] :=
  load_nonobject_empty.2.2 (JVal.num 5) (by decide)

theorem projectNewFormat_isSome (m : List (String × Occurrence))
    (kv : String × AnnotationEntry) :
    (projectNewFormat m kv).isSome =
      ((assocFind kv.1 m).isSome &&
        (decide (kv.2.decision = "accept") || decide (kv.2.decision = "reject"))) := by
  unfold projectNewFormat
  cases h : assocFind kv.1 m with
  | none => simp [h]
  | some occ =>
    by_cases hd : kv.2.decision ≠ "accept" ∧ kv.2.decision ≠ "reject"
    · simp [h, hd, hd.1, hd.2]
    · rcases not_and_or.1 hd with h1 | h1
      · rw [not_not] at h1
        simp [h, hd, h1]
      · rw [not_not] at h1
        simp [h, hd, h1]

theorem projectOldFormat_isSome (m : List (String × Occurrence))
    (kv : String × AnnotationEntry) :
    (projectOldFormat m kv).isSome =
      ((assocFind kv.1 m).isSome &&
        (decide (kv.2.decision = "accept") || decide (kv.2.decision = "reject"))) := by
  unfold projectOldFormat
  cases h : assocFind kv.1 m with
  | none => simp [h]
  | some occ =>
    by_cases hd : kv.2.decision ≠ "accept" ∧ kv.2.decision ≠ "reject"
    · simp [h, hd, hd.1, hd.2]
    · rcases not_and_or.1 hd with h1 | h1
      · rw [not_not] at h1
        simp [h, hd, h1]
      · rw [not_not] at h1
        simp [h, hd, h1]

/-- Claim C5: an annotation entry is included in an export exactly when its
key is the derived key of some record of the current result set and its
decision is exactly `accept` or `reject` — the same filter in both formats;
consequently each export document has exactly one row per store entry
satisfying that filter (entries with stale keys or empty decisions stay in
the store but produce no row). -/
theorem export_inclusion (records : List Occurrence) (annotations : Store)
    (k : String) (a : AnnotationEntry) :
    ((projectNewFormat (occurrenceMap records) (k, a)).isSome = true ↔
      ((∃ r ∈ records, getAnnotationKey r = k) ∧
        (a.decision = "accept" ∨ a.decision = "reject")))
  ∧ ((projectOldFormat (occurrenceMap records) (k, a)).isSome = true ↔
      ((∃ r ∈ records, getAnnotationKey r = k) ∧
        (a.decision = "accept" ∨ a.decision = "reject")))
  ∧ (handleDownloadAnnotations records annotations).length =
      (annotations.filter (fun kv =>
        (assocFind kv.1 (occurrenceMap records)).isSome &&
          (decide (kv.2.decision = "accept") || decide (kv.2.decision = "reject")))).length
  ∧ (handleDownloadAnnotationsOldFormat records annotations).length =
      (annotations.filter (fun kv =>
        (assocFind kv.1 (occurrenceMap records)).isSome &&
          (decide (kv.2.decision = "accept") || decide (kv.2.decision = "reject")))).length := by
  refine ⟨?_, ?_, ?_, ?_⟩
  · rw [projectNewFormat_isSome]
    simp [Bool.and_eq_true, Bool.or_eq_true, decide_eq_true_eq,
      assocFind_occurrenceMap]
  · rw [projectOldFormat_isSome]
    simp [Bool.and_eq_true, Bool.or_eq_true, decide_eq_true_eq,
      assocFind_occurrenceMap]
  · rw [handleDownloadAnnotations, length_sortByLe, length_reduceOption_map]
    congr 1
    exact List.filter_congr (fun kv _ => projectNewFormat_isSome _ kv)
  · rw [handleDownloadAnnotationsOldFormat, length_sortByLe, length_reduceOption_map]
    congr 1
    exact List.filter_congr (fun kv _ => projectOldFormat_isSome _ kv)

theorem parseIntJS_empty : parseIntJS "" = none := by decide

/-- Claim C6: in every included legacy-format row, `new_AphiaID` is the
`alternative` string parsed as an integer (so null when `alternative` is
empty or has no parseable integer prefix), and the `remove` field is present
exactly on reject — true exactly when `alternative` is empty — and absent on
accept. -/
theorem oldFormat_fields (m : List (String × Occurrence)) (k : String)
    (a : AnnotationEntry) (item : OldItem)
    (h : projectOldFormat m (k, a) = some item) :
    item.new_AphiaID = parseIntJS a.alternative
  ∧ (a.alternative = "" → item.new_AphiaID = none)
  ∧ (item.remove.isSome = true ↔ a.decision = "reject")
  ∧ (a.decision = "reject" → item.remove = some (decide (a.alternative = "")))
  ∧ (a.decision = "accept" → item.remove = none) := by
  simp only [projectOldFormat] at h
  cases hm : assocFind k m with
  | none => simp only [hm] at h; simp at h
  | some occ =>
    simp only [hm] at h
    by_cases hd : a.decision ≠ "accept" ∧ a.decision ≠ "reject"
    · rw [if_pos hd] at h
      simp at h
    · rw [if_neg hd] at h
      have hi := Option.some.inj h
      subst hi
      refine ⟨?_, ?_, ?_, ?_, ?_⟩
      · by_cases ha : a.alternative = ""
        · simp [ha, parseIntJS_empty]
        · simp [ha]
      · intro ha
        simp [ha]
      · by_cases hr : a.decision = "reject"
        · simp [hr]
        · simp [hr]
      · intro hr
        simp [hr]
      · intro hacc
        have hr : a.decision ≠ "reject" := by
          rw [hacc]
          decide
        simp [hr]

/-- Witness for C6 at a rejected entry with empty alternative. -/
theorem oldFormat_fields_witness :
    (⟨none, none, none, none, none, none, none, none, none, some "reject",
        none, none, none, some true⟩ : OldItem).new_AphiaID = parseIntJS ""
  ∧ ("" = "" →
      (⟨none, none, none, none, none, none, none, none, none, some "reject",
          none, none, none, some true⟩ : OldItem).new_AphiaID = none)
  ∧ ((⟨none, none, none, none, none, none, none, none, none, some "reject",
          none, none, none, some true⟩ : OldItem).remove.isSome = true ↔
      "reject" = "reject")
  ∧ ("reject" = "reject" →
      (⟨none, none, none, none, none, none, none, none, none, some "reject",
          none, none, none, some true⟩ : OldItem).remove = some (decide ("" = "")))
  ∧ ("reject" = "accept" →
      (⟨none, none, none, none, none, none, none, none, none, some "reject",
          none, none, none, some true⟩ : OldItem).remove = none) :=
  oldFormat_fields
    [("na|na|na", ⟨none, none, none, none, none, none, none, none, none, none⟩)]
    "na|na|na" ⟨"reject", "", ""⟩ _ (by decide)

/-- Claim C10: both export projections read joined fields with `x || null`,
so falsy values are coerced to null in the document: a density or suitability
of exactly 0 exports as null, an empty-string text field exports as null, and
empty alternative or comments strings export as null (the legacy format has
no alternative column; its comments column behaves the same). -/
theorem export_falsy_to_null (m : List (String × Occurrence)) (k : String)
    (a : AnnotationEntry) (occ : Occurrence) (itemN : NewItem) (itemO : OldItem)
    (hm : assocFind k m = some occ)
    (hN : projectNewFormat m (k, a) = some itemN)
    (hO : projectOldFormat m (k, a) = some itemO) :
    (occ.density = some 0 → itemN.density = none ∧ itemO.density = none)
  ∧ (occ.suitability = some 0 → itemN.suitability = none ∧ itemO.suitability = none)
  ∧ (occ.scientificName = some "" →
      itemN.scientificName = none ∧ itemO.scientificName = none)
  ∧ (occ.scientificNameID = some "" →
      itemN.scientificNameID = none ∧ itemO.scientificNameID = none)
  ∧ (occ.phylum = some "" → itemN.phylum = none ∧ itemO.phylum = none)
  ∧ (occ.«class» = some "" → itemN.«class» = none ∧ itemO.«class» = none)
  ∧ (occ.footprintWKT = some "" →
      itemN.footprintWKT = none ∧ itemO.footprintWKT = none)
  ∧ (a.alternative = "" → itemN.alternative = none)
  ∧ (a.comments = "" → itemN.comments = none ∧ itemO.comments = none) := by
  simp only [projectNewFormat] at hN
  simp only [projectOldFormat] at hO
  simp only [hm] at hN hO
  by_cases hd : a.decision ≠ "accept" ∧ a.decision ≠ "reject"
  · rw [if_pos hd] at hN
    simp at hN
  · rw [if_neg hd] at hN hO
    have hiN := Option.some.inj hN
    have hiO := Option.some.inj hO
    subst hiN
    subst hiO
    refine ⟨fun h0 => ?_, fun h0 => ?_, fun h0 => ?_, fun h0 => ?_, fun h0 => ?_,
      fun h0 => ?_, fun h0 => ?_, fun h0 => ?_, fun h0 => ?_⟩ <;>
    simp [h0, orNullNum, orNullStr, strOrNull]

/-- Witness for C10: a record with density 0 and empty scientific name joined
with an accepted entry with empty alternative and comments exports all of
those as null. -/
theorem export_falsy_to_null_witness :
    ((⟨none, some "", none, none, none, none, none, none, some 0, none⟩ :
        Occurrence).density = some 0 →
      (⟨none, none, none, none, none, none, none, none, none, none,
          some "accept", none, none⟩ : NewItem).density = none ∧
      (⟨none, none, none, none, none, none, none, none, none, some "accept",
          none, none, none, none⟩ : OldItem).density = none)
  ∧ ((⟨none, some "", none, none, none, none, none, none, some 0, none⟩ :
        Occurrence).scientificName = some "" →
      (⟨none, none, none, none, none, none, none, none, none, none,
          some "accept", none, none⟩ : NewItem).scientificName = none ∧
      (⟨none, none, none, none, none, none, none, none, none, some "accept",
          none, none, none, none⟩ : OldItem).scientificName = none) :=
  have h := export_falsy_to_null
    [("na|na|na", ⟨none, some "", none, none, none, none, none, none, some 0, none⟩)]
    "na|na|na" ⟨"accept", "", ""⟩
    ⟨none, some "", none, none, none, none, none, none, some 0, none⟩
    ⟨none, none, none, none, none, none, none, none, none, none,
      some "accept", none, none⟩
    ⟨none, none, none, none, none, none, none, none, none, some "accept",
      none, none, none, none⟩
    (by decide) (by decide) (by decide)
  ⟨h.1, h.2.2.1⟩

/-- Claim C7, evaluated at the failing input: two accepted annotations on
records with AphiaIDs 2 and 1 at identical coordinates. The current-format
export sorts them by `aphiaid` into `[1, 2]`, but the legacy-format export
keeps store order `[2, 1]`: its comparator reads `a.aphiaid`, a property that
old-format rows (which carry `AphiaID`) do not have, so — contrary to the
source's own comment "Sort by aphiaid, then by coordinates" — the aphiaid
comparison never fires and the legacy sort orders by coordinates only. -/
theorem export_sort_divergence :
    (handleDownloadAnnotations
        [⟨some 2, none, none, none, none, some 0, some 0, none, none, none⟩,
         ⟨some 1, none, none, none, none, some 0, some 0, none, none, none⟩]
        [("2|0|0", ⟨"accept", "", ""⟩), ("1|0|0", ⟨"accept", "", ""⟩)]).map
        (fun it => it.aphiaid) = [some 1, some 2]
  ∧ (handleDownloadAnnotationsOldFormat
        [⟨some 2, none, none, none, none, some 0, some 0, none, none, none⟩,
         ⟨some 1, none, none, none, none, some 0, some 0, none, none, none⟩]
        [("2|0|0", ⟨"accept", "", ""⟩), ("1|0|0", ⟨"accept", "", ""⟩)]).map
        (fun it => it.AphiaID) = [some 2, some 1] := by
  decide

/-- Claim C8: the rendered occurrence order is a permutation of the input,
weakly sorted by density with a missing density treated as positive infinity
(so every null-density record follows every defined-density record), and
stable: the records sharing any fixed density value — including the
null-density records — appear in their original relative order. On densities
`[3, null, 1, null, 2]` (records tagged 1..5) the ranked order is
`1, 2, 3` followed by the two nulls in input order. -/
theorem sortOccurrences_spec :
    (∀ records : List Occurrence,
      (sortOccurrences records).Perm records
      ∧ (sortOccurrences records).Pairwise (fun a b => densityLe a b = true)
      ∧ ∀ q : Option ℚ,
          (sortOccurrences records).filter (fun o => decide (o.density = q)) =
            records.filter (fun o => decide (o.density = q)))
  ∧ (sortOccurrences
        [⟨some 1, none, none, none, none, none, none, none, some 3, none⟩,
         ⟨some 2, none, none, none, none, none, none, none, none, none⟩,
         ⟨some 3, none, none, none, none, none, none, none, some 1, none⟩,
         ⟨some 4, none, none, none, none, none, none, none, none, none⟩,
         ⟨some 5, none, none, none, none, none, none, none, some 2, none⟩]).map
      (fun o => (o.density, o.aphiaid)) =
    [(some 1, some 3), (some 2, some 5), (some 3, some 1),
     (none, some 2), (none, some 4)] := by
  have htot : ∀ a b : Occurrence, densityLe a b = true ∨ densityLe b a = true := by
    intro a b
    unfold densityLe
    cases a.density with
    | none => cases b.density <;> simp
    | some x =>
      cases b.density with
      | none => simp
      | some y => simpa using le_total x y
  have htrans : ∀ a b c : Occurrence,
      densityLe a b = true → densityLe b c = true → densityLe a c = true := by
    intro a b c hab hbc
    unfold densityLe at hab hbc ⊢
    cases ha : a.density <;> cases hb : b.density <;> cases hc : c.density <;>
      rw [ha, hb] at hab <;> rw [hb, hc] at hbc <;> simp_all
    exact le_trans hab hbc
  constructor
  · intro records
    refine ⟨perm_sortByLe densityLe records, pairwise_sortByLe densityLe records htot htrans,
      fun q => filter_sortByLe densityLe (fun o => decide (o.density = q)) records ?_⟩
    intro x y hx hy
    rw [decide_eq_true_eq] at hx hy
    unfold densityLe
    rw [hx, hy]
    cases q <;> simp
  · decide
